import Mathlib

/-!
Verification development for the identity / session / admin subsystem of
`BiblicalInspiration/serve_biblical_inspiration.py`.

The Python code keeps its state in three SQLite tables (`users`, `sessions`,
`password_reset_tokens`); here the tables are lists of records and every HTTP
handler becomes a pure function from a database state (plus the request's
form fields, the wall clock, and the randomness the handler draws) to a new
database state and a response.

Cryptographic primitives are modelled under the standard collision-free
abstraction: a SHA-256 digest is represented by its preimage (wrapped in a
structure so digests and plain strings cannot be confused), and an scrypt
digest by the (password, salt) pair that produced it; `hmac.compare_digest`
is semantically equality.  The `issued` field of `Db` is a ghost history of
every bearer token the server ever generated; the step relation requires
freshly generated tokens to avoid it, which models "cryptographically secure
random token with at least 32 bytes of entropy" (collisions with any
previously seen token are negligible).
-/

set_option linter.all false

namespace KJV

/-- Splits a character list at the first occurrence of `c`, returning the
parts before and after it; `none` when `c` does not occur.  Models Python
`s.split(c, 1)` (which the code uses for `token.split(".", 1)` and for
`_is_emailish`'s `s.split("@", 1)`). -/
def splitFirstList (c : Char) : List Char → Option (List Char × List Char)
  | [] => none
  | x :: xs =>
    if x = c then some ([], xs)
    else (splitFirstList c xs).map (fun p => (x :: p.1, p.2))

/-- Whitespace test matching Python `str.strip`'s default set (ASCII part). -/
def is_space (c : Char) : Bool :=
  c = ' ' || c = '\t' || c = '\n' || c = '\r' || c = '\x0b' || c = '\x0c'

/-- Models Python `str.strip()`: drop whitespace from both ends. -/
def py_strip (s : String) : String :=
  ⟨(((s.data.dropWhile is_space).reverse.dropWhile is_space).reverse)⟩

/-- Lower-cases one ASCII letter, as Python `str.lower()` does (the inputs
the claims exercise are ASCII). -/
def lower_char (c : Char) : Char :=
  if 'A' ≤ c ∧ c ≤ 'Z' then Char.ofNat (c.toNat + 32) else c

/-- Models Python `str.lower()`. -/
def py_lower (s : String) : String := ⟨s.data.map lower_char⟩

/-- Models `_normalize_email`: strip whitespace and lowercase. -/
def normalize_email (raw : String) : String := py_lower (py_strip raw)

/-- Models `_is_emailish`: the string contains an `@` and the part after the
first `@` contains a dot. -/
def is_emailish (s : String) : Bool :=
  let t := py_strip s
  match splitFirstList '@' t.data with
  | none => false
  | some p => p.2.contains '.'

/-- Expansion of one character under Python `html.escape` (quote=True). -/
def html_escape_char (c : Char) : List Char :=
  if c = '&' then "&amp;".data
  else if c = '<' then "&lt;".data
  else if c = '>' then "&gt;".data
  else if c = '"' then "&quot;".data
  else if c = '\x27' then "&#x27;".data
  else [c]

/-- Models Python `html.escape` with quote=True, as used by the handlers. -/
def html_escape (s : String) : String := ⟨(s.data.map html_escape_char).join⟩

/-- Upper-case hexadecimal digit for `n < 16`. -/
def hex_digit (n : Nat) : Char :=
  if n < 10 then Char.ofNat (48 + n) else Char.ofNat (55 + n)

/-- UTF-8 byte sequence of a single character, as a list of byte values. -/
def utf8_bytes_of_char (c : Char) : List Nat :=
  let n := c.toNat
  if n < 0x80 then [n]
  else if n < 0x800 then [0xC0 + n / 0x40, 0x80 + n % 0x40]
  else if n < 0x10000 then
    [0xE0 + n / 0x1000, 0x80 + (n / 0x40) % 0x40, 0x80 + n % 0x40]
  else
    [0xF0 + n / 0x40000, 0x80 + (n / 0x1000) % 0x40,
     0x80 + (n / 0x40) % 0x40, 0x80 + n % 0x40]

/-- Characters Python `urllib.parse.quote` leaves unencoded with its default
`safe='/'` (letters, digits, `_.-~` and `/`). -/
def quote_safe (c : Char) : Bool :=
  c.isAlphanum || c = '_' || c = '.' || c = '-' || c = '~' || c = '/'

/-- Models `urllib.parse.quote` with default parameters: percent-encode each
UTF-8 byte of every non-safe character. -/
def url_quote (s : String) : String :=
  ⟨(s.data.map (fun c =>
      if quote_safe c then [c]
      else ((utf8_bytes_of_char c).map
        (fun b => ['%', hex_digit (b / 16), hex_digit (b % 16)])).join)).join⟩

/-- SHA-256 digest, modelled under the collision-free abstraction by its
preimage.  The wrapper keeps digests distinct from raw strings, so equality
of digests is exactly equality of preimages. -/
structure Sha256 where
  raw : String
deriving DecidableEq

/-- Models `_sha256_bytes`. -/
def sha256_bytes (s : String) : Sha256 := ⟨s⟩

/-- Scrypt digest, modelled under the collision-free abstraction by the
(password, salt) pair that produced it.  Salts (16 random bytes from
`secrets.token_bytes`) are modelled as natural-number tags. -/
structure ScryptDigest where
  password : String
  salt : Nat
deriving DecidableEq

/-- Models `_password_hash` (scrypt with fixed process-wide parameters). -/
def password_hash (password : String) (salt : Nat) : ScryptDigest :=
  ⟨password, salt⟩

/-- Models `hmac.compare_digest` on scrypt digests: a constant-time
comparison is semantically equality. -/
def compare_digest (a b : ScryptDigest) : Bool := a == b

/-- Models `hmac.compare_digest` on SHA-256 digests. -/
def compare_digest_sha (a b : Sha256) : Bool := a == b

/-- Row of the `users` table. -/
structure User where
  id : Nat
  email : String
  email_norm : String
  pass_salt : Nat
  pass_hash : ScryptDigest
  is_admin : Bool
  disabled : Bool
  created_at : Nat
deriving DecidableEq

/-- Row of the `sessions` table; only the token's hash is stored. -/
structure Session where
  id : Nat
  user_id : Nat
  token_hash : Sha256
  created_at : Nat
  last_seen_at : Nat
  expires_at : Nat
deriving DecidableEq

/-- Row of the `password_reset_tokens` table. -/
structure ResetToken where
  id : Nat
  user_id : Nat
  selector : String
  verifier_hash : Sha256
  created_at : Nat
  expires_at : Nat
  used_at : Option Nat
deriving DecidableEq

/-- The persistent state: the three tables, the AUTOINCREMENT counters, and
the ghost history `issued` of every bearer token ever generated (used only
to express freshness of random tokens; the real server stores no such
list). -/
structure Db where
  users : List User
  sessions : List Session
  resets : List ResetToken
  next_user_id : Nat
  next_session_id : Nat
  next_reset_id : Nat
  issued : List String
deriving DecidableEq

/-- The freshly created database: empty tables, AUTOINCREMENT counters at 1. -/
def initDb : Db := ⟨[], [], [], 1, 1, 1, []⟩

/-- The authenticated identity `_get_current_user` returns (the joined row
`session_id, user_id, email, is_admin, disabled`). -/
structure Identity where
  session_id : Nat
  user_id : Nat
  email : String
  is_admin : Bool
  disabled : Bool
deriving DecidableEq

/-- Caller-visible response: an HTML page (status, title, body_html passed to
`_send_html`) or a redirect (`_redirect`, status 303, Location header).
Cookie headers are not modelled; no claim mentions them. -/
inductive Resp where
  | page (status : Nat) (title : String) (body : String)
  | redirect (status : Nat) (location : String)
deriving DecidableEq

/-- HTTP status of a response. -/
def Resp.status : Resp → Nat
  | .page s _ _ => s
  | .redirect s _ => s

/-- Session TTL: 14 days, from `_create_session`. -/
def session_ttl : Nat := 60 * 60 * 24 * 14

/-- Reset-token TTL: 1 hour. -/
def reset_ttl : Nat := 60 * 60

/-- Models `_create_session`: insert a session storing only the token's hash,
with `expires_at = now + 14 days`; the freshly generated token is recorded in
the ghost `issued` history.  Returns the new state and `expires_at`. -/
def create_session (db : Db) (user_id : Nat) (token : String) (now : Nat) :
    Db × Nat :=
  let expires_at := now + session_ttl
  ({ db with
      sessions := db.sessions ++
        [⟨db.next_session_id, user_id, sha256_bytes token, now, now, expires_at⟩],
      next_session_id := db.next_session_id + 1,
      issued := token :: db.issued },
   expires_at)

/-- Lookup of a user row by primary key. -/
def find_user_by_id (db : Db) (uid : Nat) : Option User :=
  db.users.find? (fun u => u.id == uid)

/-- The session lookup of `_get_current_user`:
`WHERE s.token_hash = ? AND s.expires_at > ?`. -/
def find_session_by_hash (db : Db) (h : Sha256) (now : Nat) : Option Session :=
  db.sessions.find? (fun s => s.token_hash == h && decide (now < s.expires_at))

/-- The `UPDATE sessions SET last_seen_at=? WHERE id=?` of
`_get_current_user`. -/
def touch_session (db : Db) (sid : Nat) (now : Nat) : Db :=
  { db with sessions :=
      db.sessions.map fun s =>
        if s.id == sid then { s with last_seen_at := now } else s }

/-- Models `_get_current_user`: no cookie or empty token resolves to nobody;
otherwise the token's hash must match a stored session that has not expired
(`expires_at > now`) and whose user row exists; a successful resolution
touches `last_seen_at` and nothing else. -/
def get_current_user (db : Db) (now : Nat) (cookie_token : Option String) :
    Db × Option Identity :=
  match cookie_token with
  | none => (db, none)
  | some t =>
    if t = "" then (db, none)
    else
      match find_session_by_hash db (sha256_bytes t) now with
      | none => (db, none)
      | some s =>
        match find_user_by_id db s.user_id with
        | none => (db, none)
        | some u =>
          (touch_session db s.id now, some ⟨s.id, u.id, u.email, u.is_admin, u.disabled⟩)

/-- Body of the generic login failure page (bad email, unknown account, or
wrong password: one shape for all three). -/
def login_invalid_resp : Resp :=
  .page 400 "Login" "<h1>Login</h1><p class=\x27error\x27>Invalid email or password.</p><p><a href=\x27/app/login\x27>Back</a></p>"

/-- Login response for a disabled account. -/
def login_disabled_resp : Resp :=
  .page 403 "Login" "<h1>Login</h1><p class=\x27error\x27>This account is disabled.</p><p><a href=\x27/app/login\x27>Back</a></p>"

/-- Models the anonymous path of `POST /app/login` (the handler redirects
already-authenticated users before reaching this logic).  `token` is the
session token drawn from `secrets.token_urlsafe(32)` on success. -/
def app_login (db : Db) (now : Nat) (email password token : String) : Db × Resp :=
  let e := normalize_email email
  if !is_emailish e || password == "" then (db, login_invalid_resp)
  else
    match db.users.find? (fun u => u.email_norm == e) with
    | none => (db, login_invalid_resp)
    | some u =>
      if u.disabled then (db, login_disabled_resp)
      else if !compare_digest (password_hash password u.pass_salt) u.pass_hash then
        (db, login_invalid_resp)
      else
        ((create_session db u.id token now).1, .redirect 303 "/app/account")

/-- Registration failure page for an invalid email or short password. -/
def register_invalid_resp : Resp :=
  .page 400 "Register" "<h1>Register</h1><p class=\x27error\x27>Use a valid email and a password of at least 8 characters.</p><p><a href=\x27/app/register\x27>Back</a></p>"

/-- Registration failure page when the normalized email already exists (the
`sqlite3.IntegrityError` branch, raised by the UNIQUE index). -/
def register_dup_resp : Resp :=
  .page 400 "Register" "<h1>Register</h1><p class=\x27error\x27>That email is already registered.</p><p><a href=\x27/app/register\x27>Back</a></p>"

/-- Models the anonymous path of `POST /app/register`: validate, make the
user an admin exactly when the `users` table is empty, insert (failing on a
duplicate normalized email), then look the fresh row up by email and issue a
session for it. -/
def app_register (db : Db) (now : Nat) (email password : String) (salt : Nat)
    (token : String) : Db × Resp :=
  let e := normalize_email email
  if !is_emailish e || password.length < 8 then (db, register_invalid_resp)
  else
    let existing := db.users.length
    let is_admin := existing == 0
    let pwh := password_hash password salt
    if (db.users.find? (fun u => u.email_norm == e)).isSome then
      (db, register_dup_resp)
    else
      let db1 : Db := { db with
        users := db.users ++ [⟨db.next_user_id, e, e, salt, pwh, is_admin, false, now⟩],
        next_user_id := db.next_user_id + 1 }
      let uid := ((db1.users.find? (fun u => u.email_norm == e)).map User.id).getD 0
      ((create_session db1 uid token now).1, .redirect 303 "/app/account")

/-- Change-password failure page for a short new password. -/
def change_pw_weak_resp : Resp :=
  .page 400 "Account" "<h1>Account</h1><p class=\x27error\x27>New password must be at least 8 characters.</p><p><a href=\x27/app/account\x27>Back</a></p>"

/-- Change-password failure page for a wrong current password. -/
def change_pw_wrong_resp : Resp :=
  .page 400 "Account" "<h1>Account</h1><p class=\x27error\x27>Current password is incorrect.</p><p><a href=\x27/app/account\x27>Back</a></p>"

/-- Models `POST /app/account/change-password` after the handler has
resolved the (enabled) identity `uid`. -/
def app_change_password (db : Db) (uid : Nat)
    (current_password new_password : String) (salt : Nat) : Db × Resp :=
  if new_password.length < 8 then (db, change_pw_weak_resp)
  else
    match find_user_by_id db uid with
    | none => (db, .redirect 303 "/app/logout")
    | some u =>
      if !compare_digest (password_hash current_password u.pass_salt) u.pass_hash then
        (db, change_pw_wrong_resp)
      else
        ({ db with users :=
            db.users.map fun v =>
              if v.id == uid then
                { v with pass_salt := salt, pass_hash := password_hash new_password salt }
              else v },
         .redirect 303 "/app/account")

/-- The `ON DELETE CASCADE` semantics of `DELETE FROM users WHERE id=?`:
the user's sessions and reset tokens go with the user row. -/
def delete_user_cascade (db : Db) (uid : Nat) : Db :=
  { db with
      users := db.users.filter (fun u => u.id != uid),
      sessions := db.sessions.filter (fun s => s.user_id != uid),
      resets := db.resets.filter (fun r => r.user_id != uid) }

/-- Self-deletion failure page for a wrong password. -/
def delete_wrong_pw_resp : Resp :=
  .page 400 "Account" "<h1>Account</h1><p class=\x27error\x27>Password is incorrect.</p><p><a href=\x27/app/account\x27>Back</a></p>"

/-- Models `POST /app/account/delete` after the handler has resolved the
identity `uid`: re-check the password, then hard-delete the user and its
cascades.  Note the code performs no last-admin check on this path. -/
def app_account_delete (db : Db) (uid : Nat) (password : String) : Db × Resp :=
  match find_user_by_id db uid with
  | none => (db, .redirect 303 "/app/logout")
  | some u =>
    if !compare_digest (password_hash password u.pass_salt) u.pass_hash then
      (db, delete_wrong_pw_resp)
    else
      (delete_user_cascade db uid, .redirect 303 "/app/register")

/-- Body of the reset-request page when no enabled account matches. -/
def reset_generic_body : String :=
  "<h1>Reset password</h1><p class=\x27ok\x27>If the account exists, a reset link has been created.</p><p><a href=\x27/app/login\x27>Back to login</a></p>"

/-- Body of the reset-request page for a genuine enabled account: the
dev-mode page embeds the reset link and the raw token. -/
def reset_link_body (token : String) : String :=
  let link := "/app/reset/confirm?token=" ++ url_quote token
  "<h1>Reset password</h1><p class=\x27ok\x27>Reset link created (dev).</p><p><a href=\x27"
    ++ html_escape link
    ++ "\x27>Click here to reset your password</a></p><p class=\x27muted\x27>Token: <code>"
    ++ html_escape token
    ++ "</code></p><p><a href=\x27/app/login\x27>Back to login</a></p>"

/-- Models the anonymous path of `POST /app/reset`: only an enabled account
with the normalized email gets a reset record (selector/verifier split,
TTL 1 hour); `selector` and `verifier` are the randomness the handler draws
from `secrets.token_urlsafe`. -/
def app_reset_request (db : Db) (now : Nat) (email selector verifier : String) :
    Db × Resp :=
  let e := normalize_email email
  match db.users.find? (fun u => u.email_norm == e && !u.disabled) with
  | none => (db, .page 200 "Reset password" reset_generic_body)
  | some u =>
    let db1 : Db := { db with
      resets := db.resets ++
        [⟨db.next_reset_id, u.id, selector, sha256_bytes verifier, now, now + reset_ttl, none⟩],
      next_reset_id := db.next_reset_id + 1 }
    (db1, .page 200 "Reset password" (reset_link_body (selector ++ "." ++ verifier)))

/-- Confirm-reset failure page for a short new password. -/
def confirm_weak_resp : Resp :=
  .page 400 "Confirm reset" "<h1>Set new password</h1><p class=\x27error\x27>Password must be at least 8 characters.</p>"

/-- Confirm-reset failure page `Invalid token.` — produced both for a
malformed token (no separator) and for a verifier whose hash does not
match. -/
def confirm_invalid_resp : Resp :=
  .page 400 "Confirm reset" "<h1>Set new password</h1><p class=\x27error\x27>Invalid token.</p>"

/-- Confirm-reset failure page `Token expired or already used.` — produced
when the selector has no record, the record is already used, or it has
expired. -/
def confirm_used_resp : Resp :=
  .page 400 "Confirm reset" "<h1>Set new password</h1><p class=\x27error\x27>Token expired or already used.</p>"

/-- Confirm-reset success page. -/
def confirm_ok_resp : Resp :=
  .page 200 "Password reset" "<h1>Password updated</h1><p class=\x27ok\x27>You can now log in with your new password.</p><p><a href=\x27/app/login\x27>Login</a></p>"

/-- Models the anonymous path of `POST /app/reset/confirm`: check password
length, split the token on the first dot, look the selector up, reject used
or expired records, compare the verifier's hash, and on success update the
password digest, set `used_at`, and delete every session of that user. -/
def app_reset_confirm (db : Db) (now : Nat) (token new_password : String)
    (salt : Nat) : Db × Resp :=
  let tok := py_strip token
  if new_password.length < 8 then (db, confirm_weak_resp)
  else
    match splitFirstList '.' tok.data with
    | none => (db, confirm_invalid_resp)
    | some p =>
      let selector : String := ⟨p.1⟩
      let verifier : String := ⟨p.2⟩
      match db.resets.find? (fun r => r.selector == selector) with
      | none => (db, confirm_used_resp)
      | some r =>
        if r.used_at.isSome || r.expires_at ≤ now then (db, confirm_used_resp)
        else if !compare_digest_sha (sha256_bytes verifier) r.verifier_hash then
          (db, confirm_invalid_resp)
        else
          ({ db with
              users := db.users.map fun u =>
                if u.id == r.user_id then
                  { u with pass_salt := salt,
                           pass_hash := password_hash new_password salt }
                else u,
              resets := db.resets.map fun r2 =>
                if r2.id == r.id then { r2 with used_at := some now } else r2,
              sessions := db.sessions.filter fun s => s.user_id != r.user_id },
           confirm_ok_resp)

/-- Admin flash-message redirect `/app/admin?msg=...`. -/
def admin_msg_redirect (msg : String) : Resp :=
  .redirect 303 ("/app/admin?msg=" ++ url_quote msg)

/-- The admin count of `SELECT COUNT(*) FROM users WHERE is_admin=1` — note
it does not filter on `disabled`. -/
def count_admins (db : Db) : Nat := db.users.countP (fun u => u.is_admin)

/-- Models `POST /app/admin/create-user` past the admin gate. -/
def admin_create_user (db : Db) (now : Nat) (email password : String)
    (make_admin : Bool) (salt : Nat) : Db × Resp :=
  let e := normalize_email email
  if !is_emailish e || password.length < 8 then
    (db, admin_msg_redirect "Invalid email or password too short")
  else if (db.users.find? (fun u => u.email_norm == e)).isSome then
    (db, admin_msg_redirect "Email already exists")
  else
    ({ db with
        users := db.users ++
          [⟨db.next_user_id, e, e, salt, password_hash password salt, make_admin, false, now⟩],
        next_user_id := db.next_user_id + 1 },
     admin_msg_redirect "User created")

/-- Models `POST /app/admin/toggle-disabled` past the admin gate: a bare
`UPDATE users SET disabled=? WHERE id=?` with no admin-count check of any
kind. -/
def admin_toggle_disabled (db : Db) (uid : Nat) (disabled : Bool) : Db × Resp :=
  ({ db with users :=
      db.users.map fun u =>
        if u.id == uid then { u with disabled := disabled } else u },
   admin_msg_redirect "Updated")

/-- Models `POST /app/admin/toggle-admin` past the admin gate.  On demotion
the code counts `is_admin=1` rows (disabled ones included) and rejects only
when the target is an admin and that count is at most 1. -/
def admin_toggle_admin (db : Db) (uid : Nat) (make_admin : Bool) : Db × Resp :=
  let proceed : Db × Resp :=
    ({ db with users :=
        db.users.map fun u =>
          if u.id == uid then { u with is_admin := make_admin } else u },
     admin_msg_redirect "Updated")
  if make_admin then proceed
  else
    let n_admin := count_admins db
    match db.users.find? (fun u => u.id == uid) with
    | none => proceed
    | some t =>
      if t.is_admin && decide (n_admin ≤ 1) then
        (db, admin_msg_redirect "Cannot remove the last admin")
      else proceed

/-- Models `POST /app/admin/create-reset` past the admin gate. -/
def admin_create_reset (db : Db) (now : Nat) (uid : Nat)
    (selector verifier : String) : Db × Resp :=
  match db.users.find? (fun u => u.id == uid) with
  | none => (db, admin_msg_redirect "User not found")
  | some _ =>
    ({ db with
        resets := db.resets ++
          [⟨db.next_reset_id, uid, selector, sha256_bytes verifier, now, now + reset_ttl, none⟩],
        next_reset_id := db.next_reset_id + 1 },
     admin_msg_redirect ("Reset token (dev): " ++ (selector ++ "." ++ verifier)))

/-- Models `POST /app/admin/delete-user` past the admin gate: reject only
when the target is an admin and the `is_admin=1` count (disabled included)
is at most 1; otherwise delete with cascades. -/
def admin_delete_user (db : Db) (uid : Nat) : Db × Resp :=
  let proceed : Db × Resp :=
    (delete_user_cascade db uid, admin_msg_redirect "User deleted")
  match db.users.find? (fun u => u.id == uid) with
  | none => proceed
  | some t =>
    if t.is_admin then
      if count_admins db ≤ 1 then (db, admin_msg_redirect "Cannot delete the last admin")
      else proceed
    else proceed

/-- The five admin operations, with their form fields. -/
inductive AdminAction where
  | create_user (email password : String) (make_admin : Bool)
  | toggle_disabled (uid : Nat) (disabled : Bool)
  | toggle_admin (uid : Nat) (make_admin : Bool)
  | create_reset (uid : Nat)
  | delete_user (uid : Nat)
deriving DecidableEq

/-- Dispatch of an admin action to its handler; `salt`, `selector` and
`verifier` are the randomness the handlers may draw. -/
def run_admin_action (db : Db) (now : Nat) (a : AdminAction) (salt : Nat)
    (selector verifier : String) : Db × Resp :=
  match a with
  | .create_user e p mk => admin_create_user db now e p mk salt
  | .toggle_disabled uid d => admin_toggle_disabled db uid d
  | .toggle_admin uid mk => admin_toggle_admin db uid mk
  | .create_reset uid => admin_create_reset db now uid selector verifier
  | .delete_user uid => admin_delete_user db uid

/-- The 403 page of the `/app/admin/*` authorization gate. -/
def admin_forbidden_resp : Resp :=
  .page 403 "Admin" "<h1>Forbidden</h1><p class=\x27error\x27>Admin access required.</p>"

/-- Models the `/app/admin/*` authorization gate of `_handle_app_post`:
redirect anonymous callers to the login page, reject non-admins with 403,
and otherwise run the action.  The gate reads only `is_admin`; it never
consults `disabled`. -/
def handle_admin_post (db : Db) (now : Nat) (user : Option Identity)
    (a : AdminAction) (salt : Nat) (selector verifier : String) : Db × Resp :=
  match user with
  | none => (db, .redirect 303 "/app/login")
  | some u =>
    if !u.is_admin then (db, admin_forbidden_resp)
    else run_admin_action db now a salt selector verifier

/-- Validity test for one character of a URL scheme, per `urllib.parse`. -/
def is_scheme_char (c : Char) : Bool :=
  c.isAlphanum || c = '+' || c = '-' || c = '.'

/-- Bool-valued all-of for scheme characters. -/
def all_scheme_chars : List Char → Bool
  | [] => true
  | c :: cs => is_scheme_char c && all_scheme_chars cs

/-- Drops a leading `scheme:` prefix when present, per `urllib.parse`'s
scheme recognition (first char alphabetic, rest scheme chars). -/
def drop_scheme (l : List Char) : List Char :=
  match splitFirstList ':' l with
  | none => l
  | some p =>
    match p.1 with
    | [] => l
    | c :: cs => if c.isAlpha && all_scheme_chars cs then p.2 else l

/-- Characters up to the first `/`, `?` or `#`. -/
def take_netloc : List Char → List Char
  | [] => []
  | c :: cs => if c = '/' || c = '?' || c = '#' then [] else c :: take_netloc cs

/-- Models `urllib.parse.urlparse(candidate).netloc`: nonempty only when the
URL (after an optional scheme) starts with `//`. -/
def netloc (url : String) : String :=
  match drop_scheme url.data with
  | '/' :: '/' :: tail => ⟨take_netloc tail⟩
  | _ => ""

/-- Models `_same_origin_post`: no Host fails; with a Host, an absent Origin
and Referer passes ("keep permissive for local dev"); otherwise the
candidate's netloc must equal the Host. -/
def same_origin_post (host origin referer : String) : Bool :=
  let h := py_strip host
  if h == "" then false
  else
    let o := py_strip origin
    let r := py_strip referer
    let candidate := if o == "" then r else o
    if candidate == "" then true
    else netloc candidate == h

/-- One inbound request to the auth subsystem, carrying the wall clock, the
`bi_session` cookie, the form fields, and the randomness the handler draws
(session token, salt, selector, verifier).  `browse` stands for any GET that
merely resolves the session (the touch of `last_seen_at`). -/
inductive Op where
  | login (now : Nat) (cookie : Option String) (email password token : String)
  | register (now : Nat) (cookie : Option String) (email password : String)
      (salt : Nat) (token : String)
  | logout (now : Nat) (cookie : Option String)
  | browse (now : Nat) (cookie : Option String)
  | change_password (now : Nat) (cookie : Option String)
      (current_password new_password : String) (salt : Nat)
  | account_delete (now : Nat) (cookie : Option String) (password : String)
  | reset_request (now : Nat) (cookie : Option String)
      (email selector verifier : String)
  | reset_confirm (now : Nat) (cookie : Option String)
      (token new_password : String) (salt : Nat)
  | admin_post (now : Nat) (cookie : Option String) (a : AdminAction)
      (salt : Nat) (selector verifier : String)

/-- Behaviour of one request, mirroring `_handle_app_post` / `_handle_app_get`:
every handler first resolves the cookie via `_get_current_user` (touching the
session), then branches on whether an identity was found. -/
def exec (db : Db) : Op → Db × Resp
  | .login now cookie email password token =>
    let r := get_current_user db now cookie
    match r.2 with
    | some _ => (r.1, .redirect 303 "/app/account")
    | none => app_login r.1 now email password token
  | .register now cookie email password salt token =>
    let r := get_current_user db now cookie
    match r.2 with
    | some _ => (r.1, .redirect 303 "/app/account")
    | none => app_register r.1 now email password salt token
  | .logout now cookie =>
    let r := get_current_user db now cookie
    match r.2, cookie with
    | some _, some t =>
      if t ≠ "" then
        ({ r.1 with sessions :=
            r.1.sessions.filter fun s => s.token_hash != sha256_bytes t },
         .redirect 303 "/app/login")
      else (r.1, .redirect 303 "/app/login")
    | _, _ => (r.1, .redirect 303 "/app/login")
  | .browse now cookie =>
    ((get_current_user db now cookie).1, .page 200 "" "")
  | .change_password now cookie cur new salt =>
    let r := get_current_user db now cookie
    match r.2 with
    | none => (r.1, .redirect 303 "/app/login")
    | some u =>
      if u.disabled then
        (r.1, .page 403 "Account" "<h1>Account</h1><p class=\x27error\x27>Account disabled.</p>")
      else app_change_password r.1 u.user_id cur new salt
  | .account_delete now cookie password =>
    let r := get_current_user db now cookie
    match r.2 with
    | none => (r.1, .redirect 303 "/app/login")
    | some u => app_account_delete r.1 u.user_id password
  | .reset_request now cookie email sel ver =>
    let r := get_current_user db now cookie
    match r.2 with
    | some _ => (r.1, .redirect 303 "/app/account")
    | none => app_reset_request r.1 now email sel ver
  | .reset_confirm now cookie token pw salt =>
    let r := get_current_user db now cookie
    match r.2 with
    | some _ => (r.1, .redirect 303 "/app/account")
    | none => app_reset_confirm r.1 now token pw salt
  | .admin_post now cookie a salt sel ver =>
    let r := get_current_user db now cookie
    handle_admin_post r.1 now r.2 a salt sel ver

/-- Bearer tokens freshly generated while serving the request. -/
def op_new_tokens : Op → List String
  | .login _ _ _ _ t => [t]
  | .register _ _ _ _ _ t => [t]
  | _ => []

/-- One step of the system: some request is served, with every freshly
generated bearer token distinct from all tokens ever issued (the model of
cryptographically secure randomness). -/
def Step (db db' : Db) : Prop :=
  ∃ op : Op, (∀ t ∈ op_new_tokens op, t ∉ db.issued) ∧ db' = (exec db op).1

/-- Reachability: any finite sequence of steps. -/
def Reach : Db → Db → Prop := Relation.ReflTransGen Step

/-- The CSRF gate of `_handle_app_post`: a failed same-origin check yields a
400 page and no processing; otherwise the request is served. -/
def handle_app_post (db : Db) (host origin referer : String) (op : Op) :
    Db × Resp :=
  if !same_origin_post host origin referer then
    (db, .page 400 "Bad Request" "<h1>Bad Request</h1><p class=\x27error\x27>Origin check failed.</p>")
  else exec db op

/-- Store holding one enabled non-admin user `a@x.com` (id 1). -/
def db_one_user : Db :=
  ⟨[⟨1, "a@x.com", "a@x.com", 0, ⟨"pw123456", 0⟩, false, false, 0⟩],
   [], [], 2, 1, 1, []⟩

/-- Store holding one user and one reset record for selector `s` that
expired at time 10. -/
def db_expired_reset : Db :=
  ⟨[⟨1, "a@x.com", "a@x.com", 0, ⟨"pw123456", 0⟩, false, false, 0⟩],
   [], [⟨1, 1, "s", ⟨"v"⟩, 0, 10, none⟩], 2, 1, 2, []⟩

/-- Store holding one user, one live session for token `T0`, and one unused
unexpired reset record for selector `s` (verifier `v`, expiry 100). -/
def db_live_reset : Db :=
  ⟨[⟨1, "a@x.com", "a@x.com", 0, ⟨"pw123456", 0⟩, false, false, 0⟩],
   [⟨1, 1, ⟨"T0"⟩, 0, 0, 1209600⟩],
   [⟨1, 1, "s", ⟨"v"⟩, 0, 100, none⟩], 2, 2, 2, ["T0"]⟩

/-- Store holding one user and one session for token `T0` expiring at 100. -/
def db_one_session : Db :=
  ⟨[⟨1, "a@x.com", "a@x.com", 0, ⟨"pw123456", 0⟩, false, false, 0⟩],
   [⟨1, 1, ⟨"T0"⟩, 0, 0, 100⟩], [], 2, 2, 1, ["T0"]⟩

/-- Existence of an enabled administrator: a user with `is_admin` set and
`disabled` unset. -/
def exists_enabled_admin (db : Db) : Prop :=
  ∃ u ∈ db.users, u.is_admin = true ∧ u.disabled = false

instance (db : Db) : Decidable (exists_enabled_admin db) := by
  unfold exists_enabled_admin
  infer_instance

/-- State reached from the empty store by registering `a@x.com` (who becomes
the first — and sole, enabled — admin, with session token `T0`). -/
def st1 : Db := (exec initDb (.register 0 none "a@x.com" "password1" 0 "T0")).1

/-- State reached from `st1` when the admin creates a second admin
`b@x.com` through the admin panel. -/
def st2 : Db :=
  (exec st1 (.admin_post 1 (some "T0") (.create_user "b@x.com" "password1" true) 1 "" "")).1

/-- State reached from `st2` when the admin disables user 1: two admins
remain on the books, but only user 2 is an enabled admin. -/
def st3 : Db :=
  (exec st2 (.admin_post 2 (some "T0") (.toggle_disabled 1 true) 0 "" "")).1

/-- State reached from `st1` when the sole enabled admin disables
themselves through `/app/admin/toggle-disabled`. -/
def c1_state_b : Db :=
  (exec st1 (.admin_post 1 (some "T0") (.toggle_disabled 1 true) 0 "" "")).1

/-- A bearer token is revoked in a state when it was issued at some point
but no stored session carries its hash — exactly the situation right after
`DELETE FROM sessions WHERE token_hash=?` (logout) or after the revoke-all
of a confirmed reset has removed the token's sessions. -/
def Revoked (t : String) (db : Db) : Prop :=
  t ∈ db.issued ∧ ∀ s ∈ db.sessions, s.token_hash ≠ sha256_bytes t

/-- State reached from `st1` when the logged-in user logs out: the session
for `T0` is deleted while `T0` stays in the issued history. -/
def st1_logged_out : Db := (exec st1 (.logout 1 (some "T0"))).1

/-- Splitting a list at the first occurrence of `c` recovers the two halves
when the first half avoids `c`. -/
theorem splitFirstList_append (c : Char) (l1 l2 : List Char) (h : c ∉ l1) :
    splitFirstList c (l1 ++ c :: l2) = some (l1, l2) := by
  induction l1 with
  | nil => simp [splitFirstList]
  | cons x xs ih =>
    have hx : ¬ x = c := fun he => h (he ▸ List.mem_cons_self x xs)
    have hxs : c ∉ xs := fun hm => h (List.mem_cons_of_mem x hm)
    simp only [List.cons_append, splitFirstList, if_neg hx]
    rw [List.append_eq, ih hxs]
    rfl

/-- When the selector's record is already used, `confirm` fails with the
`Token expired or already used.` page and changes nothing. -/
theorem confirm_used_of_found (db : Db) (now : Nat) (tok pw : String) (salt : Nat)
    (selv : List Char × List Char) (r : ResetToken)
    (hpw : 8 ≤ pw.length)
    (hsplit : splitFirstList '.' (py_strip tok).data = some selv)
    (hr : db.resets.find? (fun x => x.selector == (⟨selv.1⟩ : String)) = some r)
    (hused : r.used_at.isSome = true) :
    app_reset_confirm db now tok pw salt = (db, confirm_used_resp) := by
  unfold app_reset_confirm
  dsimp only
  rw [if_neg (by omega), hsplit]
  dsimp only
  rw [hr]
  dsimp only
  rw [if_pos (by simp [hused])]

/-- When a list of users has pairwise-distinct ids and contains an admin
`t` among at least two admins, some admin has an id different from `t`'s. -/
theorem exists_admin_ne_of_two (l : List User)
    (hnd : (l.map User.id).Nodup) (t : User) (ht : t ∈ l)
    (hta : t.is_admin = true) (h2 : 2 ≤ l.countP (fun u => u.is_admin)) :
    ∃ a ∈ l, a.is_admin = true ∧ a.id ≠ t.id := by
  obtain ⟨s1, s2, rfl⟩ := List.append_of_mem ht
  have hcnt : s1.countP (fun u => u.is_admin) + s2.countP (fun u => u.is_admin) + 1
      = (s1 ++ t :: s2).countP (fun u => u.is_admin) := by
    rw [List.countP_append, List.countP_cons_of_pos _ _ (by simpa using hta)]
    omega
  have hpos : 0 < s1.countP (fun u => u.is_admin) ∨ 0 < s2.countP (fun u => u.is_admin) := by
    omega
  have hmap : (s1 ++ t :: s2).map User.id = s1.map User.id ++ t.id :: s2.map User.id := by
    simp
  rw [hmap] at hnd
  have hnotin1 : t.id ∉ s1.map User.id := by
    have hd := List.disjoint_of_nodup_append hnd
    intro hmem
    exact hd hmem (List.mem_cons_self _ _)
  have hnotin2 : t.id ∉ s2.map User.id := by
    have hr := hnd.of_append_right
    exact (List.nodup_cons.mp hr).1
  rcases hpos with hp | hp
  · obtain ⟨a, ha, haa⟩ := List.countP_pos.mp hp
    refine ⟨a, List.mem_append_left _ ha, by simpa using haa, ?_⟩
    intro he
    exact hnotin1 (he ▸ List.mem_map_of_mem User.id ha)
  · obtain ⟨a, ha, haa⟩ := List.countP_pos.mp hp
    refine ⟨a, List.mem_append_right _ (List.mem_cons_of_mem _ ha), by simpa using haa, ?_⟩
    intro he
    exact hnotin2 (he ▸ List.mem_map_of_mem User.id ha)

/-- When a list of users has pairwise-distinct ids, contains an admin, and
`t` is a non-admin member, some admin has an id different from `t`'s. -/
theorem exists_admin_ne_of_nonadmin (l : List User)
    (hnd : (l.map User.id).Nodup) (t : User) (ht : t ∈ l)
    (hta : t.is_admin = false) (h1 : ∃ a ∈ l, a.is_admin = true) :
    ∃ a ∈ l, a.is_admin = true ∧ a.id ≠ t.id := by
  obtain ⟨a, ha, haa⟩ := h1
  refine ⟨a, ha, haa, ?_⟩
  intro he
  have := List.inj_on_of_nodup_map hnd ha ht he
  rw [this, hta] at haa
  exact Bool.false_ne_true haa

/-- C10: For every state-changing POST request to an /app path whose Host
header is non-empty (after stripping) and which carries neither an Origin
nor a Referer header, the same-origin check passes, so the request is
processed despite the absence of any origin evidence. -/
theorem c10_origin_gate_permissive (db : Db) (host : String) (op : Op)
    (h : py_strip host ≠ "") :
    same_origin_post host "" "" = true ∧
    handle_app_post db host "" "" op = exec db op := by
  have hb : (py_strip host == "") = false := by
    simpa using h
  have hs : same_origin_post host "" "" = true := by
    simp only [same_origin_post]
    rw [hb]
    rfl
  refine ⟨hs, ?_⟩
  unfold handle_app_post
  rw [hs]
  rfl

/-- Witness for `c10_origin_gate_permissive` at a concrete host and request. -/
theorem c10_witness :
    handle_app_post initDb "localhost:8000" "" "" (.browse 0 none)
      = exec initDb (.browse 0 none) :=
  (c10_origin_gate_permissive initDb "localhost:8000" (.browse 0 none)
    (by decide)).2

/-- C9: a request whose session resolves to a user with both `is_admin` and
`disabled` set passes the `/app/admin/*` authorization gate and every admin
operation executes: the gate checks only `is_admin`, never `disabled`, so a
disabled admin retains full admin access (the second conjunct shows the
gate's outcome is independent of the `disabled` flag). -/
theorem c9_disabled_admin_full_access (db : Db) (now : Nat) (u : Identity)
    (a : AdminAction) (salt : Nat) (sel ver : String) (h : u.is_admin = true) :
    handle_admin_post db now (some u) a salt sel ver
      = run_admin_action db now a salt sel ver ∧
    ∀ d : Bool,
      handle_admin_post db now (some { u with disabled := d }) a salt sel ver
        = run_admin_action db now a salt sel ver := by
  constructor
  · simp [handle_admin_post, h]
  · intro d
    simp [handle_admin_post, h]

/-- Witness for `c9_disabled_admin_full_access`: a disabled admin identity
executes an admin operation. -/
theorem c9_witness :
    handle_admin_post initDb 0 (some ⟨1, 1, "a@x.com", true, true⟩)
        (.create_reset 1) 0 "s" "v"
      = run_admin_action initDb 0 (.create_reset 1) 0 "s" "v" :=
  (c9_disabled_admin_full_access initDb 0 ⟨1, 1, "a@x.com", true, true⟩
    (.create_reset 1) 0 "s" "v" rfl).1

/-- C8: every successful `Register` appends exactly one user, and that
user's admin flag is set if and only if no user existed before the call. -/
theorem c8_first_user_admin (db : Db) (now : Nat) (email password : String)
    (salt : Nat) (token : String)
    (h : (app_register db now email password salt token).2
          = .redirect 303 "/app/account") :
    ∃ u : User,
      (app_register db now email password salt token).1.users
        = db.users ++ [u] ∧
      (u.is_admin = true ↔ db.users = []) := by
  simp only [app_register] at h ⊢
  split at h
  next hc => exact absurd h (by simp [register_invalid_resp])
  next hc =>
    split at h
    next hd => exact absurd h (by simp [register_dup_resp])
    next hd =>
      rw [if_neg hc, if_neg hd]
      exact ⟨_, rfl, by simp [List.length_eq_zero]⟩

/-- Witness for `c8_first_user_admin`: registration into the empty store
succeeds and the new user is an admin. -/
theorem c8_witness :
    (app_register initDb 0 "a@x.com" "password1" 0 "T0").2
      = .redirect 303 "/app/account" ∧
    ∃ u : User,
      (app_register initDb 0 "a@x.com" "password1" 0 "T0").1.users
        = initDb.users ++ [u] ∧
      (u.is_admin = true ↔ initDb.users = []) :=
  ⟨by decide, c8_first_user_admin initDb 0 "a@x.com" "password1" 0 "T0" (by decide)⟩

/-- C7: resolution of a presented bearer token yields a session and its
user exactly when a stored session's token hash equals the token's hash and
that session's `expires_at > now` (stated under the foreign-key invariant
that every session's user row exists, which SQLite enforces); a successful
resolution sets `last_seen_at` to `now` on the resolved session while every
session's `expires_at` (and token hash) is left unchanged. -/
theorem c7_resolve_spec (db : Db) (now : Nat) (t : String)
    (ht : t ≠ "")
    (hfk : ∀ s ∈ db.sessions, ∃ u ∈ db.users, u.id = s.user_id) :
    ((get_current_user db now (some t)).2.isSome ↔
      ∃ s ∈ db.sessions, s.token_hash = sha256_bytes t ∧ now < s.expires_at) ∧
    (get_current_user db now (some t)).1.sessions.map Session.expires_at
      = db.sessions.map Session.expires_at ∧
    (get_current_user db now (some t)).1.sessions.map Session.token_hash
      = db.sessions.map Session.token_hash ∧
    (∀ i, (get_current_user db now (some t)).2 = some i →
      ∃ s' ∈ (get_current_user db now (some t)).1.sessions,
        s'.id = i.session_id ∧ s'.last_seen_at = now) := by
  unfold get_current_user
  dsimp only
  rw [if_neg ht]
  cases hfind : find_session_by_hash db (sha256_bytes t) now with
  | none =>
    dsimp only
    refine ⟨?_, rfl, rfl, ?_⟩
    · simp only [Option.isSome_none, Bool.false_eq_true, false_iff]
      rintro ⟨s, hs, hh, hlt⟩
      have hnone := (List.find?_eq_none.mp hfind) s hs
      simp [hh, hlt] at hnone
    · intro i hi
      exact absurd hi (by simp)
  | some s =>
    dsimp only
    have hps := List.find?_some hfind
    have hmem := List.mem_of_find?_eq_some hfind
    simp only [Bool.and_eq_true, beq_iff_eq, decide_eq_true_eq] at hps
    cases hfu : find_user_by_id db s.user_id with
    | none =>
      exfalso
      obtain ⟨u, hu, hid⟩ := hfk s hmem
      have hsome : (find_user_by_id db s.user_id).isSome := by
        unfold find_user_by_id
        exact List.find?_isSome.mpr ⟨u, hu, by simp [hid]⟩
      rw [hfu] at hsome
      simp at hsome
    | some u =>
      dsimp only
      refine ⟨?_, ?_, ?_, ?_⟩
      · simp only [Option.isSome_some, true_iff]
        exact ⟨s, hmem, hps.1, hps.2⟩
      · unfold touch_session
        simp only [List.map_map]
        refine List.map_congr_left ?_
        intro s2 _
        simp only [Function.comp_apply]
        split <;> rfl
      · unfold touch_session
        simp only [List.map_map]
        refine List.map_congr_left ?_
        intro s2 _
        simp only [Function.comp_apply]
        split <;> rfl
      · intro i hi
        have hi' : i = ⟨s.id, u.id, u.email, u.is_admin, u.disabled⟩ := by
          simpa using hi.symm
        refine ⟨{ s with last_seen_at := now }, ?_, by simp [hi'], rfl⟩
        unfold touch_session
        simp only [List.mem_map]
        exact ⟨s, hmem, by simp⟩

/-- Witness for `c7_resolve_spec` on a store with one live session. -/
theorem c7_witness :
    ((get_current_user db_one_session 5 (some "T0")).2.isSome ↔
      ∃ s ∈ db_one_session.sessions,
        s.token_hash = sha256_bytes "T0" ∧ 5 < s.expires_at) ∧
    (get_current_user db_one_session 5 (some "T0")).1.sessions.map Session.expires_at
      = db_one_session.sessions.map Session.expires_at ∧
    (get_current_user db_one_session 5 (some "T0")).1.sessions.map Session.token_hash
      = db_one_session.sessions.map Session.token_hash ∧
    (∀ i, (get_current_user db_one_session 5 (some "T0")).2 = some i →
      ∃ s' ∈ (get_current_user db_one_session 5 (some "T0")).1.sessions,
        s'.id = i.session_id ∧ s'.last_seen_at = 5) :=
  c7_resolve_spec db_one_session 5 "T0" (by decide) (by decide)

/-- C3 counterexample: on a store with the enabled account `a@x.com`, the
reset-request responses for an existing and a non-existing email are not of
identical shape — the genuine run's dev-mode body embeds the reset link and
token — and the non-existing run creates nothing. -/
theorem c3_counterexample :
    (app_reset_request db_one_user 0 "a@x.com" "sel" "ver").2
      ≠ (app_reset_request db_one_user 0 "b@x.com" "sel" "ver").2 ∧
    (app_reset_request db_one_user 0 "b@x.com" "sel" "ver").1 = db_one_user := by
  decide

/-- C3 amended: both reset-request runs return an HTTP 200 page, and the run
for an unknown (or disabled) account changes nothing, but the two bodies
differ: the genuine run's page embeds the dev-mode link and token.  Only the
genuine run appends a reset record, and the token it returns redeems
successfully later (fresh selector, within the TTL). -/
theorem c3_reset_request_behavior (db : Db) (now : Nat) (email sel ver : String) :
    (db.users.find? (fun u => u.email_norm == normalize_email email && !u.disabled) = none →
      app_reset_request db now email sel ver
        = (db, .page 200 "Reset password" reset_generic_body)) ∧
    (∀ u, db.users.find? (fun u => u.email_norm == normalize_email email && !u.disabled) = some u →
      (app_reset_request db now email sel ver).2
        = .page 200 "Reset password" (reset_link_body (sel ++ "." ++ ver)) ∧
      (app_reset_request db now email sel ver).1.resets
        = db.resets ++ [⟨db.next_reset_id, u.id, sel, sha256_bytes ver, now, now + reset_ttl, none⟩] ∧
      (∀ now2 pw salt, 8 ≤ pw.length → now2 < now + reset_ttl →
        py_strip (sel ++ "." ++ ver) = sel ++ "." ++ ver →
        '.' ∉ sel.data →
        (∀ r ∈ db.resets, r.selector ≠ sel) →
        (app_reset_confirm (app_reset_request db now email sel ver).1 now2
            (sel ++ "." ++ ver) pw salt).2 = confirm_ok_resp)) := by
  constructor
  · intro hnone
    unfold app_reset_request
    dsimp only
    rw [hnone]
  · intro u hu
    unfold app_reset_request
    dsimp only
    rw [hu]
    dsimp only
    refine ⟨rfl, rfl, ?_⟩
    intro now2 pw salt hpw hexp hstrip hdot hfreshsel
    unfold app_reset_confirm
    rw [if_neg (by omega), hstrip]
    have hdata : (sel ++ "." ++ ver).data = sel.data ++ '.' :: ver.data := by
      show (sel.data ++ ".".data) ++ ver.data = _
      simp
    rw [hdata, splitFirstList_append '.' sel.data ver.data hdot]
    dsimp only
    have hsel : (⟨sel.data⟩ : String) = sel := rfl
    have hfind :
        ((db.resets ++ [(⟨db.next_reset_id, u.id, sel, sha256_bytes ver, now, now + reset_ttl, none⟩ : ResetToken)]).find?
          (fun r => r.selector == (⟨sel.data⟩ : String)))
        = some (⟨db.next_reset_id, u.id, sel, sha256_bytes ver, now, now + reset_ttl, none⟩ : ResetToken) := by
      rw [List.find?_append]
      have h1 : db.resets.find? (fun r => r.selector == (⟨sel.data⟩ : String)) = none := by
        rw [List.find?_eq_none]
        intro r hr
        simp only [hsel, beq_iff_eq]
        exact fun he => hfreshsel r hr he
      rw [h1]
      simp [hsel]
    rw [hfind]
    dsimp only
    rw [if_neg (by simp; omega)]
    rw [if_neg (by simp [compare_digest_sha, sha256_bytes])]

/-- Witness for `c3_reset_request_behavior`: the token created for the
genuine account redeems successfully. -/
theorem c3_witness :
    (app_reset_confirm (app_reset_request db_one_user 0 "a@x.com" "sel" "ver").1
        5 ("sel" ++ "." ++ "ver") "newpassword1" 1).2 = confirm_ok_resp :=
  ((c3_reset_request_behavior db_one_user 0 "a@x.com" "sel" "ver").2
      ⟨1, "a@x.com", "a@x.com", 0, ⟨"pw123456", 0⟩, false, false, 0⟩ (by decide)).2.2
    5 "newpassword1" 1 (by decide) (by decide) (by decide) (by decide)
    (by intro r hr; exact absurd hr (List.not_mem_nil r))

/-- C4 counterexample: with an acceptable new password, a malformed token
(no separator) and an expired record produce two different error pages —
`Invalid token.` versus `Token expired or already used.` — so the five
failure causes do not all produce the same error. -/
theorem c4_counterexample :
    (app_reset_confirm db_expired_reset 20 "sv" "newpassword1" 0).2
      = confirm_invalid_resp ∧
    (app_reset_confirm db_expired_reset 20 "s.v" "newpassword1" 0).2
      = confirm_used_resp ∧
    confirm_invalid_resp ≠ confirm_used_resp := by
  decide

/-- C4 amended: with an acceptable new password every failure cause yields
an HTTP 400 page and no state change; a malformed token and a verifier-hash
mismatch produce the identical `Invalid token.` error (no distinct
wrong-secret signal), while an absent, already-used, or expired record
produces the distinct `Token expired or already used.` error. -/
theorem c4_confirm_errors (db : Db) (now : Nat) (tok pw : String) (salt : Nat)
    (hpw : 8 ≤ pw.length) :
    (splitFirstList '.' (py_strip tok).data = none →
      app_reset_confirm db now tok pw salt = (db, confirm_invalid_resp)) ∧
    (∀ selv, splitFirstList '.' (py_strip tok).data = some selv →
      (db.resets.find? (fun r => r.selector == (⟨selv.1⟩ : String)) = none →
        app_reset_confirm db now tok pw salt = (db, confirm_used_resp)) ∧
      (∀ r, db.resets.find? (fun r => r.selector == (⟨selv.1⟩ : String)) = some r →
        ((r.used_at.isSome || decide (r.expires_at ≤ now)) = true →
          app_reset_confirm db now tok pw salt = (db, confirm_used_resp)) ∧
        (r.used_at = none → now < r.expires_at →
          sha256_bytes (⟨selv.2⟩ : String) ≠ r.verifier_hash →
          app_reset_confirm db now tok pw salt = (db, confirm_invalid_resp)))) ∧
    confirm_invalid_resp ≠ confirm_used_resp := by
  refine ⟨?_, ?_, by decide⟩
  · intro hsplit
    unfold app_reset_confirm
    rw [if_neg (by omega), hsplit]
  · intro selv hsplit
    constructor
    · intro hnone
      unfold app_reset_confirm
      rw [if_neg (by omega), hsplit]
      dsimp only
      rw [hnone]
    · intro r hr
      constructor
      · intro hbad
        unfold app_reset_confirm
        rw [if_neg (by omega), hsplit]
        dsimp only
        rw [hr]
        dsimp only
        rw [if_pos hbad]
      · intro hused hexp hne
        unfold app_reset_confirm
        rw [if_neg (by omega), hsplit]
        dsimp only
        rw [hr]
        dsimp only
        rw [if_neg (by simp [hused]; omega)]
        rw [if_pos (by simp [compare_digest_sha]; exact hne)]

/-- Witness for `c4_confirm_errors`: the malformed, expired and
wrong-verifier cases at concrete inputs. -/
theorem c4_witness :
    app_reset_confirm db_expired_reset 20 "sv" "newpassword1" 0
      = (db_expired_reset, confirm_invalid_resp) ∧
    app_reset_confirm db_expired_reset 20 "s.v" "newpassword1" 0
      = (db_expired_reset, confirm_used_resp) ∧
    app_reset_confirm db_live_reset 5 "s.x" "newpassword1" 0
      = (db_live_reset, confirm_invalid_resp) :=
  ⟨(c4_confirm_errors db_expired_reset 20 "sv" "newpassword1" 0 (by decide)).1
      (by decide),
   (((c4_confirm_errors db_expired_reset 20 "s.v" "newpassword1" 0 (by decide)).2.1
      ("s".data, "v".data) (by decide)).2 ⟨1, 1, "s", ⟨"v"⟩, 0, 10, none⟩
      (by decide)).1 (by decide),
   (((c4_confirm_errors db_live_reset 5 "s.x" "newpassword1" 0 (by decide)).2.1
      ("s".data, "x".data) (by decide)).2 ⟨1, 1, "s", ⟨"v"⟩, 0, 100, none⟩
      (by decide)).2 rfl (by decide) (by decide)⟩

/-- C5: a `ConfirmReset` that succeeds did so only with the token's record
unused (`used_at` null), unexpired (`expires_at > now`), and the presented
verifier's hash equal to the stored hash; and afterwards the record is used,
so a second confirm with the same token (and an acceptable password) fails
with the token-invalid error and changes nothing. -/
theorem c5_single_use (db : Db) (now : Nat) (tok pw : String) (salt : Nat)
    (h : (app_reset_confirm db now tok pw salt).2 = confirm_ok_resp) :
    (∃ selv, splitFirstList '.' (py_strip tok).data = some selv ∧
      ∃ r, db.resets.find? (fun x => x.selector == (⟨selv.1⟩ : String)) = some r ∧
        r.used_at = none ∧ now < r.expires_at ∧
        sha256_bytes (⟨selv.2⟩ : String) = r.verifier_hash) ∧
    (∀ now2 pw2 salt2, 8 ≤ pw2.length →
      app_reset_confirm (app_reset_confirm db now tok pw salt).1 now2 tok pw2 salt2
        = ((app_reset_confirm db now tok pw salt).1, confirm_used_resp)) := by
  unfold app_reset_confirm at h
  dsimp only at h
  split at h
  · exact absurd h (by simp [confirm_weak_resp, confirm_ok_resp])
  next hlen =>
    cases hsplit : splitFirstList '.' (py_strip tok).data with
    | none =>
      rw [hsplit] at h
      exact absurd h (by simp [confirm_invalid_resp, confirm_ok_resp])
    | some selv =>
      rw [hsplit] at h
      dsimp only at h
      cases hr : db.resets.find? (fun x => x.selector == (⟨selv.1⟩ : String)) with
      | none =>
        rw [hr] at h
        exact absurd h (by simp [confirm_used_resp, confirm_ok_resp])
      | some r =>
        rw [hr] at h
        dsimp only at h
        split at h
        · exact absurd h (by simp [confirm_used_resp, confirm_ok_resp])
        next hfresh =>
          split at h
          · exact absurd h (by simp [confirm_invalid_resp, confirm_ok_resp])
          next hver =>
            have hused : r.used_at = none := by
              rcases hu : r.used_at with _ | v
              · rfl
              · rw [hu] at hfresh
                simp at hfresh
            have hexp : now < r.expires_at := by
              rcases Nat.lt_or_ge now r.expires_at with hlt | hge
              · exact hlt
              · exfalso
                apply hfresh
                simp
                omega
            have hverifier : sha256_bytes (⟨selv.2⟩ : String) = r.verifier_hash := by
              by_contra hne
              apply hver
              simp [compare_digest_sha]
              exact hne
            refine ⟨⟨selv, rfl, r, hr, hused, hexp, hverifier⟩, ?_⟩
            intro now2 pw2 salt2 hpw2
            have hres : (app_reset_confirm db now tok pw salt).1.resets
                = db.resets.map
                    (fun r2 => if r2.id == r.id then { r2 with used_at := some now } else r2) := by
              unfold app_reset_confirm
              dsimp only
              rw [if_neg hlen, hsplit]
              dsimp only
              rw [hr]
              dsimp only
              rw [if_neg hfresh, if_neg hver]
            have hr1 : ((app_reset_confirm db now tok pw salt).1.resets.find?
                (fun x => x.selector == (⟨selv.1⟩ : String)))
                = some { r with used_at := some now } := by
              rw [hres, List.find?_map]
              have hfun : ((fun x : ResetToken => x.selector == (⟨selv.1⟩ : String)) ∘
                  (fun r2 => if r2.id == r.id then { r2 with used_at := some now } else r2))
                  = (fun x : ResetToken => x.selector == (⟨selv.1⟩ : String)) := by
                funext x
                simp only [Function.comp_apply]
                split <;> rfl
              rw [hfun, hr]
              simp
            exact confirm_used_of_found _ now2 tok pw2 salt2 selv _ hpw2 hsplit hr1 (by simp)

/-- Witness for `c5_single_use`: a concrete confirm succeeds once and the
second confirm with the same token fails. -/
theorem c5_witness :
    (app_reset_confirm db_live_reset 5 "s.v" "newpassword1" 1).2 = confirm_ok_resp ∧
    app_reset_confirm (app_reset_confirm db_live_reset 5 "s.v" "newpassword1" 1).1
        7 "s.v" "newpassword2" 2
      = ((app_reset_confirm db_live_reset 5 "s.v" "newpassword1" 1).1, confirm_used_resp) :=
  ⟨by decide,
   (c5_single_use db_live_reset 5 "s.v" "newpassword1" 1 (by decide)).2
     7 "newpassword2" 2 (by decide)⟩

/-- C1 counterexample: `st1` is reachable (one registration) and has an
enabled admin, yet the admin-affecting mutation AdminToggleDisabled — a
single further step, the admin disabling user 1 — leaves a state with no
enabled admin: the toggle-disabled path performs no last-admin check. -/
theorem c1_counterexample :
    Reach initDb st1 ∧
    exists_enabled_admin st1 ∧
    Step st1 c1_state_b ∧
    ¬ exists_enabled_admin c1_state_b := by
  refine ⟨?_, by decide, ?_, by decide⟩
  · exact Relation.ReflTransGen.single
      ⟨.register 0 none "a@x.com" "password1" 0 "T0", by decide, rfl⟩
  · exact ⟨.admin_post 1 (some "T0") (.toggle_disabled 1 true) 0 "" "", by decide, rfl⟩

/-- C1 amended: only AdminToggleAdmin and AdminDeleteUser carry a last-admin
check, and what they preserve (over stores with pairwise-distinct user ids,
as the primary key guarantees) is the existence of a user with `is_admin`
set — not of an enabled admin; AdminToggleDisabled and DeleteSelf perform no
check at all and can disable or delete the last enabled administrator. -/
theorem c1_admin_flag_preserved (db : Db) (hnd : (db.users.map User.id).Nodup)
    (h : ∃ u ∈ db.users, u.is_admin = true) :
    (∀ uid mk, ∃ u ∈ (admin_toggle_admin db uid mk).1.users, u.is_admin = true) ∧
    (∀ uid, ∃ u ∈ (admin_delete_user db uid).1.users, u.is_admin = true) := by
  constructor
  · intro uid mk
    unfold admin_toggle_admin
    dsimp only
    cases mk with
    | true =>
      rw [if_pos rfl]
      dsimp only
      obtain ⟨a, ha, haa⟩ := h
      refine ⟨_, List.mem_map_of_mem _ ha, ?_⟩
      by_cases hid : (a.id == uid) = true <;> simp [hid, haa]
    | false =>
      rw [if_neg (by simp)]
      cases hfind : db.users.find? (fun u => u.id == uid) with
      | none =>
        dsimp only
        obtain ⟨a, ha, haa⟩ := h
        have hne : (a.id == uid) = false := by
          have := List.find?_eq_none.mp hfind a ha
          simpa using this
        refine ⟨_, List.mem_map_of_mem _ ha, ?_⟩
        simp [hne, haa]
      | some t =>
        dsimp only
        have htmem := List.mem_of_find?_eq_some hfind
        have htid : t.id = uid := by
          have := List.find?_some hfind
          simpa using this
        split
        · exact h
        next hcond =>
          have hother : ∃ a ∈ db.users, a.is_admin = true ∧ a.id ≠ t.id := by
            rcases Bool.eq_false_or_eq_true t.is_admin with hta | hta
            · have hcnt : 2 ≤ db.users.countP (fun u => u.is_admin) := by
                by_contra hle
                apply hcond
                simp only [Bool.and_eq_true, hta, decide_eq_true_eq, true_and]
                unfold count_admins at hle ⊢
                omega
              exact exists_admin_ne_of_two db.users hnd t htmem hta hcnt
            · exact exists_admin_ne_of_nonadmin db.users hnd t htmem hta h
          obtain ⟨a, ha, haa, hne⟩ := hother
          have hne' : (a.id == uid) = false := by
            rw [← htid]
            simpa using hne
          refine ⟨_, List.mem_map_of_mem _ ha, ?_⟩
          simp [hne', haa]
  · intro uid
    unfold admin_delete_user
    dsimp only
    cases hfind : db.users.find? (fun u => u.id == uid) with
    | none =>
      dsimp only
      obtain ⟨a, ha, haa⟩ := h
      have hne : (a.id == uid) = false := by
        have := List.find?_eq_none.mp hfind a ha
        simpa using this
      refine ⟨a, ?_, haa⟩
      unfold delete_user_cascade
      dsimp only
      rw [List.mem_filter]
      exact ⟨ha, by simpa using hne⟩
    | some t =>
      dsimp only
      have htmem := List.mem_of_find?_eq_some hfind
      have htid : t.id = uid := by
        have := List.find?_some hfind
        simpa using this
      rcases Bool.eq_false_or_eq_true t.is_admin with hta | hta
      · rw [if_pos (by simp [hta])]
        by_cases hle : count_admins db ≤ 1
        · rw [if_pos hle]
          exact h
        · rw [if_neg hle]
          have hcnt : 2 ≤ db.users.countP (fun u => u.is_admin) := by
            unfold count_admins at hle
            omega
          obtain ⟨a, ha, haa, hne⟩ := exists_admin_ne_of_two db.users hnd t htmem hta hcnt
          refine ⟨a, ?_, haa⟩
          unfold delete_user_cascade
          dsimp only
          rw [List.mem_filter]
          refine ⟨ha, ?_⟩
          simpa using (htid ▸ hne)
      · rw [if_neg (by simp [hta])]
        obtain ⟨a, ha, haa, hne⟩ := exists_admin_ne_of_nonadmin db.users hnd t htmem hta h
        refine ⟨a, ?_, haa⟩
        unfold delete_user_cascade
        dsimp only
        rw [List.mem_filter]
        refine ⟨ha, ?_⟩
        simpa using (htid ▸ hne)

/-- Witness for `c1_admin_flag_preserved`: demoting or deleting one of the
two admins of `st2` leaves an admin-flagged user. -/
theorem c1_witness :
    (∃ u ∈ (admin_toggle_admin st2 2 false).1.users, u.is_admin = true) ∧
    (∃ u ∈ (admin_delete_user st2 2).1.users, u.is_admin = true) :=
  ⟨(c1_admin_flag_preserved st2 (by decide) (by decide)).1 2 false,
   (c1_admin_flag_preserved st2 (by decide) (by decide)).2 2⟩

/-- C2 counterexample: `st3` is reachable and holds two admins, the
disabled user 1 and the enabled user 2, so the enabled-admin count is 1.
Demoting user 2 — which would leave the resulting enabled-admin count at
zero — nevertheless succeeds with `Updated`, because the code counts all
`is_admin` rows (disabled included), not the enabled admins the claim
describes. -/
theorem c2_counterexample :
    Reach initDb st3 ∧
    st3.users.find? (fun u => u.id == 2)
      = some ⟨2, "b@x.com", "b@x.com", 1, ⟨"password1", 1⟩, true, false, 1⟩ ∧
    exists_enabled_admin st3 ∧
    (admin_toggle_admin st3 2 false).2 = admin_msg_redirect "Updated" ∧
    ¬ exists_enabled_admin (admin_toggle_admin st3 2 false).1 := by
  refine ⟨?_, by decide, by decide, by decide, by decide⟩
  exact Relation.ReflTransGen.tail
    (Relation.ReflTransGen.tail
      (Relation.ReflTransGen.single
        ⟨.register 0 none "a@x.com" "password1" 0 "T0", by decide, rfl⟩)
      ⟨.admin_post 1 (some "T0") (.create_user "b@x.com" "password1" true) 1 "" "", by decide, rfl⟩)
    ⟨.admin_post 2 (some "T0") (.toggle_disabled 1 true) 0 "" "", by decide, rfl⟩

/-- C2 amended: the demotion and deletion handlers count the `is_admin`
rows — regardless of the disabled flag — in the same store snapshot; when
the target is an admin and that count is at most 1 they reject (flash
message `Cannot remove/delete the last admin`) and change nothing, and when
the target is one of at least two admins the demotion always succeeds. -/
theorem c2_last_admin_check :
    (∀ (db : Db) (uid : Nat) (t : User),
      db.users.find? (fun u => u.id == uid) = some t → t.is_admin = true →
      count_admins db ≤ 1 →
      admin_toggle_admin db uid false
        = (db, admin_msg_redirect "Cannot remove the last admin") ∧
      admin_delete_user db uid
        = (db, admin_msg_redirect "Cannot delete the last admin")) ∧
    (∀ (db : Db) (uid : Nat) (t : User),
      db.users.find? (fun u => u.id == uid) = some t → t.is_admin = true →
      2 ≤ count_admins db →
      (admin_toggle_admin db uid false).2 = admin_msg_redirect "Updated" ∧
      (admin_toggle_admin db uid false).1.users
        = db.users.map (fun u => if u.id == uid then { u with is_admin := false } else u)) := by
  constructor
  · intro db uid t hfind hta hle
    constructor
    · unfold admin_toggle_admin
      rw [if_neg (by simp)]
      dsimp only
      rw [hfind]
      dsimp only
      rw [if_pos (by simp [hta, hle])]
    · unfold admin_delete_user
      dsimp only
      rw [hfind]
      dsimp only
      rw [if_pos (by simp [hta]), if_pos hle]
  · intro db uid t hfind hta h2
    have hcond : ¬ (t.is_admin && decide (count_admins db ≤ 1)) = true := by
      simp [hta]
      omega
    constructor
    · unfold admin_toggle_admin
      rw [if_neg (by simp)]
      dsimp only
      rw [hfind]
      dsimp only
      rw [if_neg hcond]
    · unfold admin_toggle_admin
      rw [if_neg (by simp)]
      dsimp only
      rw [hfind]
      dsimp only
      rw [if_neg hcond]

/-- Witness for `c2_last_admin_check`: the sole admin of `st1` cannot be
demoted or deleted, while demoting one of the two admins of `st2`
succeeds. -/
theorem c2_witness :
    (admin_toggle_admin st1 1 false
        = (st1, admin_msg_redirect "Cannot remove the last admin") ∧
      admin_delete_user st1 1
        = (st1, admin_msg_redirect "Cannot delete the last admin")) ∧
    ((admin_toggle_admin st2 2 false).2 = admin_msg_redirect "Updated" ∧
      (admin_toggle_admin st2 2 false).1.users
        = st2.users.map (fun u => if u.id == 2 then { u with is_admin := false } else u)) :=
  ⟨c2_last_admin_check.1 st1 1
      ⟨1, "a@x.com", "a@x.com", 0, ⟨"password1", 0⟩, true, false, 0⟩
      (by decide) (by decide) (by decide),
   c2_last_admin_check.2 st2 2
      ⟨2, "b@x.com", "b@x.com", 1, ⟨"password1", 1⟩, true, false, 1⟩
      (by decide) (by decide) (by decide)⟩

/-- Revocation is preserved whenever the issued history only grows and
every session of the new state either reuses an old session hash or a
freshly generated token. -/
theorem revoked_of (t : String) (db db' : Db)
    (hiss : ∀ x ∈ db.issued, x ∈ db'.issued)
    (hsess : ∀ s ∈ db'.sessions,
      (∃ s0 ∈ db.sessions, s.token_hash = s0.token_hash) ∨
      ∃ tok, s.token_hash = sha256_bytes tok ∧ tok ∉ db.issued) :
    Revoked t db → Revoked t db' := by
  rintro ⟨h1, h2⟩
  refine ⟨hiss _ h1, ?_⟩
  intro s hs
  rcases hsess s hs with ⟨s0, hs0, he⟩ | ⟨tok, he, hftok⟩
  · rw [he]
    exact h2 s0 hs0
  · rw [he]
    intro hcontra
    have htt : tok = t := congrArg Sha256.raw hcontra
    exact hftok (htt ▸ h1)

/-- Resolution never changes the issued-token history. -/
theorem gcu_issued (db : Db) (now : Nat) (c : Option String) :
    (get_current_user db now c).1.issued = db.issued := by
  unfold get_current_user
  cases c with
  | none => rfl
  | some s =>
    dsimp only
    split
    · rfl
    · cases find_session_by_hash db (sha256_bytes s) now with
      | none => rfl
      | some sess =>
        dsimp only
        cases find_user_by_id db sess.user_id with
        | none => rfl
        | some u => rfl

/-- Resolution (including its `last_seen_at` touch) preserves revocation. -/
theorem gcu_revoked (t : String) (db : Db) (now : Nat) (c : Option String)
    (h : Revoked t db) : Revoked t (get_current_user db now c).1 := by
  unfold get_current_user
  cases c with
  | none => exact h
  | some s =>
    dsimp only
    split
    · exact h
    · cases find_session_by_hash db (sha256_bytes s) now with
      | none => exact h
      | some sess =>
        dsimp only
        cases find_user_by_id db sess.user_id with
        | none => exact h
        | some u =>
          dsimp only
          refine ⟨h.1, ?_⟩
          intro s2 hs2
          unfold touch_session at hs2
          dsimp only at hs2
          rw [List.mem_map] at hs2
          obtain ⟨s0, hs0, rfl⟩ := hs2
          have hth := h.2 s0 hs0
          split <;> exact hth

/-- Creating a session from a token never issued before preserves the
revocation of a previously issued token. -/
theorem revoked_create_session (t : String) (db : Db) (uid : Nat)
    (tok : String) (now : Nat) (hfresh : tok ∉ db.issued) (h : Revoked t db) :
    Revoked t (create_session db uid tok now).1 := by
  refine revoked_of t db _ ?_ ?_ h
  · intro x hx
    exact List.mem_cons_of_mem _ hx
  · intro s hs
    unfold create_session at hs
    dsimp only at hs
    rw [List.mem_append] at hs
    rcases hs with hs | hs
    · exact Or.inl ⟨s, hs, rfl⟩
    · right
      refine ⟨tok, ?_, hfresh⟩
      simp at hs
      rw [hs]



/-- Revocation only depends on the sessions and the issued history. -/
theorem revoked_same_sessions (t : String) (db db' : Db)
    (hiss : db'.issued = db.issued) (hsess : db'.sessions = db.sessions)
    (h : Revoked t db) : Revoked t db' := by
  refine ⟨hiss ▸ h.1, ?_⟩
  intro s hs
  exact h.2 s (hsess ▸ hs)

/-- Deleting sessions preserves revocation. -/
theorem revoked_filter_sessions (t : String) (db db' : Db)
    (hiss : db'.issued = db.issued)
    (hsess : ∀ s ∈ db'.sessions, s ∈ db.sessions)
    (h : Revoked t db) : Revoked t db' := by
  refine ⟨hiss ▸ h.1, ?_⟩
  intro s hs
  exact h.2 s (hsess s hs)

/-- Login preserves revocation when its fresh token was never issued. -/
theorem revoked_app_login (t : String) (db : Db) (now : Nat)
    (email password token : String) (hfresh : token ∉ db.issued)
    (h : Revoked t db) : Revoked t (app_login db now email password token).1 := by
  unfold app_login
  dsimp only
  split
  · exact h
  · cases db.users.find? (fun u => u.email_norm == normalize_email email) with
    | none => exact h
    | some u =>
      dsimp only
      split
      · exact h
      · split
        · exact h
        · exact revoked_create_session t db u.id token now hfresh h

/-- Registration preserves revocation when its fresh token was never
issued. -/
theorem revoked_app_register (t : String) (db : Db) (now : Nat)
    (email password : String) (salt : Nat) (token : String)
    (hfresh : token ∉ db.issued) (h : Revoked t db) :
    Revoked t (app_register db now email password salt token).1 := by
  unfold app_register
  dsimp only
  split
  · exact h
  · split
    · exact h
    · refine revoked_create_session t _ _ token now hfresh ?_
      exact revoked_same_sessions t db _ rfl rfl h

/-- Changing a password touches no session, preserving revocation. -/
theorem revoked_app_change_password (t : String) (db : Db) (uid : Nat)
    (cur new : String) (salt : Nat) (h : Revoked t db) :
    Revoked t (app_change_password db uid cur new salt).1 := by
  unfold app_change_password
  try dsimp only
  split
  · exact h
  · cases find_user_by_id db uid with
    | none => exact h
    | some u =>
      dsimp only
      split
      · exact h
      · exact revoked_same_sessions t db _ rfl rfl h

/-- The delete cascade only removes sessions, preserving revocation. -/
theorem revoked_delete_user_cascade (t : String) (db : Db) (uid : Nat)
    (h : Revoked t db) : Revoked t (delete_user_cascade db uid) := by
  refine revoked_filter_sessions t db _ rfl ?_ h
  intro s hs
  unfold delete_user_cascade at hs
  dsimp only at hs
  exact (List.mem_filter.mp hs).1

/-- Self-deletion preserves revocation. -/
theorem revoked_app_account_delete (t : String) (db : Db) (uid : Nat)
    (password : String) (h : Revoked t db) :
    Revoked t (app_account_delete db uid password).1 := by
  unfold app_account_delete
  try dsimp only
  cases find_user_by_id db uid with
  | none => exact h
  | some u =>
    dsimp only
    split
    · exact h
    · exact revoked_delete_user_cascade t db uid h

/-- Requesting a reset touches no session, preserving revocation. -/
theorem revoked_app_reset_request (t : String) (db : Db) (now : Nat)
    (email sel ver : String) (h : Revoked t db) :
    Revoked t (app_reset_request db now email sel ver).1 := by
  unfold app_reset_request
  try dsimp only
  cases db.users.find? (fun u => u.email_norm == normalize_email email && !u.disabled) with
  | none => exact h
  | some u => exact revoked_same_sessions t db _ rfl rfl h

/-- Confirming a reset only deletes sessions, preserving revocation. -/
theorem revoked_app_reset_confirm (t : String) (db : Db) (now : Nat)
    (token pw : String) (salt : Nat) (h : Revoked t db) :
    Revoked t (app_reset_confirm db now token pw salt).1 := by
  unfold app_reset_confirm
  dsimp only
  split
  · exact h
  · cases splitFirstList '.' (py_strip token).data with
    | none => exact h
    | some p =>
      dsimp only
      cases db.resets.find? (fun r => r.selector == (⟨p.1⟩ : String)) with
      | none => exact h
      | some r =>
        dsimp only
        split
        · exact h
        · split
          · exact h
          · refine revoked_filter_sessions t db _ rfl ?_ h
            intro s hs
            dsimp only at hs
            exact (List.mem_filter.mp hs).1

/-- Every admin action either leaves sessions alone or deletes some,
preserving revocation. -/
theorem revoked_run_admin_action (t : String) (db : Db) (now : Nat)
    (a : AdminAction) (salt : Nat) (sel ver : String) (h : Revoked t db) :
    Revoked t (run_admin_action db now a salt sel ver).1 := by
  cases a with
  | create_user e p mk =>
    unfold run_admin_action admin_create_user
    try dsimp only
    split
    · exact h
    · split
      · exact h
      · exact revoked_same_sessions t db _ rfl rfl h
  | toggle_disabled uid d =>
    unfold run_admin_action admin_toggle_disabled
    try dsimp only
    exact revoked_same_sessions t db _ rfl rfl h
  | toggle_admin uid mk =>
    unfold run_admin_action admin_toggle_admin
    try dsimp only
    split
    · exact revoked_same_sessions t db _ rfl rfl h
    · cases db.users.find? (fun u => u.id == uid) with
      | none => exact revoked_same_sessions t db _ rfl rfl h
      | some tu =>
        dsimp only
        split
        · exact h
        · exact revoked_same_sessions t db _ rfl rfl h
  | create_reset uid =>
    unfold run_admin_action admin_create_reset
    try dsimp only
    cases db.users.find? (fun u => u.id == uid) with
    | none => exact h
    | some u => exact revoked_same_sessions t db _ rfl rfl h
  | delete_user uid =>
    unfold run_admin_action admin_delete_user
    try dsimp only
    cases db.users.find? (fun u => u.id == uid) with
    | none => exact revoked_delete_user_cascade t db uid h
    | some tu =>
      dsimp only
      split
      · split
        · exact h
        · exact revoked_delete_user_cascade t db uid h
      · exact revoked_delete_user_cascade t db uid h

/-- The admin gate and dispatch preserve revocation. -/
theorem revoked_handle_admin_post (t : String) (db : Db) (now : Nat)
    (user : Option Identity) (a : AdminAction) (salt : Nat) (sel ver : String)
    (h : Revoked t db) :
    Revoked t (handle_admin_post db now user a salt sel ver).1 := by
  unfold handle_admin_post
  try dsimp only
  cases user with
  | none => exact h
  | some u =>
    dsimp only
    split
    · exact h
    · exact revoked_run_admin_action t db now a salt sel ver h



/-- Every request the system can serve preserves revocation: the only way
a session appears is `_create_session` with a token fresh with respect to
the whole issued history. -/
theorem step_revoked (t : String) (db db' : Db) (hstep : Step db db')
    (h : Revoked t db) : Revoked t db' := by
  obtain ⟨op, hfresh, rfl⟩ := hstep
  cases op with
  | login now cookie email password token =>
    have hfr : token ∉ (get_current_user db now cookie).1.issued := by
      rw [gcu_issued]
      exact hfresh token (by simp [op_new_tokens])
    have h1 := gcu_revoked t db now cookie h
    unfold exec
    dsimp only
    cases (get_current_user db now cookie).2 with
    | some u => exact h1
    | none => exact revoked_app_login t _ now email password token hfr h1
  | register now cookie email password salt token =>
    have hfr : token ∉ (get_current_user db now cookie).1.issued := by
      rw [gcu_issued]
      exact hfresh token (by simp [op_new_tokens])
    have h1 := gcu_revoked t db now cookie h
    unfold exec
    dsimp only
    cases (get_current_user db now cookie).2 with
    | some u => exact h1
    | none => exact revoked_app_register t _ now email password salt token hfr h1
  | logout now cookie =>
    have h1 := gcu_revoked t db now cookie h
    unfold exec
    dsimp only
    cases (get_current_user db now cookie).2 with
    | none =>
      cases cookie with
      | none => exact h1
      | some ct => exact h1
    | some u =>
      cases cookie with
      | none => exact h1
      | some ct =>
        dsimp only
        split
        · refine revoked_filter_sessions t (get_current_user db now (some ct)).1 _ rfl ?_ h1
          intro s hs
          exact (List.mem_filter.mp hs).1
        · exact h1
  | browse now cookie =>
    exact gcu_revoked t db now cookie h
  | change_password now cookie cur new salt =>
    have h1 := gcu_revoked t db now cookie h
    unfold exec
    dsimp only
    cases (get_current_user db now cookie).2 with
    | none => exact h1
    | some u =>
      dsimp only
      split
      · exact h1
      · exact revoked_app_change_password t _ u.user_id cur new salt h1
  | account_delete now cookie password =>
    have h1 := gcu_revoked t db now cookie h
    unfold exec
    dsimp only
    cases (get_current_user db now cookie).2 with
    | none => exact h1
    | some u => exact revoked_app_account_delete t _ u.user_id password h1
  | reset_request now cookie email sel ver =>
    have h1 := gcu_revoked t db now cookie h
    unfold exec
    dsimp only
    cases (get_current_user db now cookie).2 with
    | some u => exact h1
    | none => exact revoked_app_reset_request t _ now email sel ver h1
  | reset_confirm now cookie token pw salt =>
    have h1 := gcu_revoked t db now cookie h
    unfold exec
    dsimp only
    cases (get_current_user db now cookie).2 with
    | some u => exact h1
    | none => exact revoked_app_reset_confirm t _ now token pw salt h1
  | admin_post now cookie a salt sel ver =>
    have h1 := gcu_revoked t db now cookie h
    unfold exec
    dsimp only
    exact revoked_handle_admin_post t _ now _ a salt sel ver h1

/-- C6: once a session token has been revoked — it was issued, and no
stored session carries its hash, the state `DELETE FROM sessions` leaves
behind after a logout or after the revoke-all step of a successful reset
confirmation — no later request presenting that token resolves to an
identity in any subsequently reachable state: resolution returns the
Anonymous outcome (`none`) at every wall-clock time. -/
theorem c6_revoked_never_resolves (db db' : Db) (t : String)
    (hissued : t ∈ db.issued)
    (hgone : ∀ s ∈ db.sessions, s.token_hash ≠ sha256_bytes t)
    (hreach : Reach db db') :
    ∀ now, (get_current_user db' now (some t)).2 = none := by
  have hrev : Revoked t db' := by
    induction hreach with
    | refl => exact ⟨hissued, hgone⟩
    | tail hsteps hstep ih => exact step_revoked t _ _ hstep ih
  intro now
  unfold get_current_user
  dsimp only
  split
  · rfl
  · have hfind : find_session_by_hash db' (sha256_bytes t) now = none := by
      unfold find_session_by_hash
      rw [List.find?_eq_none]
      intro s hs
      simp [hrev.2 s hs]
    rw [hfind]

/-- Witness for `c6_revoked_never_resolves`: after the registered user of
`st1` logs out, the token `T0` is revoked and no longer resolves, also one
browse step later. -/
theorem c6_witness :
    (get_current_user
      ((exec st1_logged_out (.browse 2 (some "T0"))).1) 3 (some "T0")).2 = none :=
  c6_revoked_never_resolves st1_logged_out _ "T0" (by decide) (by decide)
    (Relation.ReflTransGen.single ⟨.browse 2 (some "T0"), by decide, rfl⟩) 3

end KJV
